import Mathlib

/-!
Verification of the hardhat_ts candidate-identification engine of necessist.

The embedding models the TypeScript AST fragment that the engine inspects
(the node alphabet of swc that the code pattern-matches on: calls, member
accesses, identifiers, string literals, arrow functions, awaits, blocks,
and the statement kinds), together with:

* `Necessist.visitor.*` — the span-extraction visitor of
  `core/src/framework/impls/hardhat_ts/visitor.rs`: the `Visit`
  implementation (`visit_expr` / `visit_stmt`, with the default swc
  traversal of children made explicit as `visit_*_children`), and the pure
  helpers `is_it_call_expr`, `is_method_call`, `is_ignored_method`,
  `is_ignored_function_call`, `trim_expr`, `is_function_call`,
  `is_ignored_function`.
* `Necessist.hardhat_ts.is_it_call_expr` — the test-case recognizer of
  `frameworks/src/hardhat_ts/mod.rs` (returns the `Test` with the `it`
  message and body statements).

Modelling conventions:

* Spans are half-open byte ranges `⟨lo, hi⟩ : Spn`.  The Rust code finally
  converts byte positions to line/column through the swc `SourceMap`
  (`to_internal_span`); that conversion is a per-file monotone rendering of
  the byte offsets and is abstracted away — the emitted spans are kept as
  byte ranges, which is the level at which the visitor computes
  (`span.lo = obj.span().hi`).
* Call arguments: swc wraps each argument in `ExprOrSpread`; none of the
  embedded code ever consults the `spread` field (patterns go through
  `arg.expr`, and the default traversal visits `arg.expr`), so arguments
  are modelled by their expressions.
* `TsTypeParamInstantiation` (type arguments) contains only TypeScript
  type nodes, which the traversal never turns into expression or statement
  visits; it is modelled as an opaque node and visiting it is a no-op.
* AST node kinds that the code never名 inspects are folded into `other`
  constructors carrying the sub-expressions and sub-statements that the
  default swc traversal would visit.
* The two `assert!`s of `visit_expr` (no nested recognized `it`, and
  `span.lo <= span.hi`) are runtime panics in Rust; the model continues
  past them.  The second one is proved to hold under the parser guarantee
  that child spans lie inside parent spans (`call_span_wf`).
* `Config` (from the core crate, not under `src/`) is consulted only
  through `config.ignored_functions.iter().any(...)`; it is modelled by
  that field alone.
-/

namespace Necessist

/-- A byte span `[lo, hi)` as carried by every swc AST node. -/
structure Spn where
  lo : Nat
  hi : Nat
deriving DecidableEq, Repr

/-- Opaque model of `TsTypeParamInstantiation` (type arguments of a call).
Its subtree contains only TypeScript type nodes, never expressions or
statements, so the visitor's traversal of it is a no-op. -/
structure TypeArgs where
  span : Spn
deriving DecidableEq, Repr

/-- Model of `Lit`: the code only distinguishes string literals. -/
inductive Lit where
  | str (value : String)
  | otherLit
deriving DecidableEq, Repr

mutual
/-- The expression alphabet the engine inspects (swc `Expr`). -/
inductive Expr where
  | call (span : Spn) (callee : Callee) (args : List Expr) (typeArgs : Option TypeArgs)
  | member (span : Spn) (obj : Expr) (prop : MemberProp)
  | ident (span : Spn) (sym : String)
  | lit (span : Spn) (l : Lit)
  | arrow (span : Spn) (body : ArrowBody)
  | await (span : Spn) (arg : Expr)
  | other (span : Spn) (exprs : List Expr) (stmts : List Stmt)

/-- swc `Callee`. -/
inductive Callee where
  | expr (e : Expr)
  | superCallee (span : Spn)
  | importCallee (span : Spn)

/-- swc `MemberProp`. -/
inductive MemberProp where
  | ident (span : Spn) (sym : String)
  | computed (span : Spn) (e : Expr)
  | privateName (span : Spn)

/-- swc `BlockStmtOrExpr` (body of an arrow function). -/
inductive ArrowBody where
  | block (span : Spn) (stmts : List Stmt)
  | expr (e : Expr)

/-- The statement alphabet (swc `Stmt`).  `decl`, `ifStmt` and `other`
carry the sub-expressions and sub-statements visited by the default
traversal. -/
inductive Stmt where
  | expr (span : Spn) (e : Expr)
  | breakStmt (span : Spn)
  | continueStmt (span : Spn)
  | decl (span : Spn) (exprs : List Expr) (stmts : List Stmt)
  | ret (span : Spn) (arg : Option Expr)
  | block (span : Spn) (stmts : List Stmt)
  | ifStmt (span : Spn) (test : Expr) (cons : Stmt) (alt : Option Stmt)
  | other (span : Spn) (exprs : List Expr) (stmts : List Stmt)
end

/-- The byte span carried by an expression node (swc `Spanned::span`). -/
def Expr.spanOf : Expr → Spn
  | .call sp _ _ _ => sp
  | .member sp _ _ => sp
  | .ident sp _ => sp
  | .lit sp _ => sp
  | .arrow sp _ => sp
  | .await sp _ => sp
  | .other sp _ _ => sp

/-- The byte span carried by a statement node (swc `Spanned::span`). -/
def Stmt.spanOf : Stmt → Spn
  | .expr sp _ => sp
  | .breakStmt sp => sp
  | .continueStmt sp => sp
  | .decl sp _ _ => sp
  | .ret sp _ => sp
  | .block sp _ => sp
  | .ifStmt sp _ _ _ => sp
  | .other sp _ _ => sp

/-- A parsed module: its statement list (swc `Module.body`, whose items the
default `visit_module` traversal feeds to `visit_stmt`). -/
structure Module where
  body : List Stmt

/-- The part of the core `Config` that the visitor consults:
`config.ignored_functions` (dotted paths configured by the user). -/
structure Config where
  ignored_functions : List String

namespace visitor

/-- State of the `Visitor` (visitor.rs): the `in_it_call_expr` flag, the
`n_stmt_leaves_visited` counter, and the ordered `spans` output. -/
structure VisitorState where
  inItCallExpr : Bool
  nStmtLeavesVisited : Nat
  spans : List Spn
deriving DecidableEq, Repr

/-- `MethodCall` (visitor.rs): `receiver . p1 … pk ( args )`, decomposed. -/
structure MethodCall where
  span : Spn
  obj : Expr
  path : List String
  args : List Expr
  typeArgs : Option TypeArgs

/-- `FunctionCall` (visitor.rs): a call whose callee is a dotted path of
identifiers rooted at a plain identifier. -/
structure FunctionCall where
  span : Spn
  path : List String
  args : List Expr
  typeArgs : Option TypeArgs

/-- `is_it_call_expr` (visitor.rs lines 154-168): a call whose callee is
the plain identifier `it`.  Note that this check inspects nothing else —
not the number of arguments nor their shapes. -/
def is_it_call_expr (e : Expr) : Bool :=
  match e with
  | .call _ (.expr (.ident _ sym)) _ _ => sym == "it"
  | _ => false

/-- The member-unrolling loop shared by `is_method_call` and
`is_function_call`: strips `… . ident` accesses off `expr`, returning the
final receiver and the identifier path in source order (the Rust code
pushes into `path_reversed` and reverses at the end). -/
def unroll_member_path : Expr → Expr × List String
  | .member sp obj prop =>
    match prop with
    | .ident _ sym =>
      let p := unroll_member_path obj
      (p.1, p.2 ++ [sym])
    | .computed psp pe => (.member sp obj (.computed psp pe), [])
    | .privateName psp => (.member sp obj (.privateName psp), [])
  | e => (e, [])

/-- `is_method_call` (visitor.rs lines 170-206). -/
def is_method_call (e : Expr) : Option MethodCall :=
  match e with
  | .call sp (.expr callee) args typeArgs =>
    match unroll_member_path callee with
    | (_, []) => none
    | (obj, path) => some ⟨sp, obj, path, args, typeArgs⟩
  | _ => none

/-- `is_ignored_method` (visitor.rs lines 208-218). -/
def is_ignored_method (path : List String) (args : List Expr) : Bool :=
  match path with
  | ident :: _ =>
    ident == "should" || ident == "to" ||
      ((ident == "toNumber" || ident == "toString") &&
        path.length == 1 && args.isEmpty)
  | [] => false

/-- `trim_expr` (visitor.rs lines 240-255): unwrap any chain of `await`
and member-access forms. -/
def trim_expr : Expr → Expr
  | .await _ arg => trim_expr arg
  | .member _ obj _ => trim_expr obj
  | e => e

/-- `is_function_call` (visitor.rs lines 257-293). -/
def is_function_call (e : Expr) : Option FunctionCall :=
  match e with
  | .call sp (.expr callee) args typeArgs =>
    match unroll_member_path callee with
    | (.ident _ sym, path) => some ⟨sp, sym :: path, args, typeArgs⟩
    | _ => none
  | _ => none

/-- `is_ignored_function` (visitor.rs lines 295-304). -/
def is_ignored_function (cfg : Config) (path : List String) : Bool :=
  (match path with
   | ident :: _ => ident == "assert" || (ident == "expect" && path.length == 1)
   | [] => false)
  || cfg.ignored_functions.any (fun s => s == String.intercalate "." path)

theorem unroll_member_path_fst_sizeOf_le (e : Expr) :
    sizeOf (unroll_member_path e).1 ≤ sizeOf e := by
  suffices H : ∀ n (e : Expr), sizeOf e ≤ n → sizeOf (unroll_member_path e).1 ≤ sizeOf e from
    H (sizeOf e) e le_rfl
  intro n
  induction n with
  | zero =>
    intro e h
    cases e <;> simp_all
  | succ n ih =>
    intro e h
    match e with
    | .member sp obj prop =>
      match prop with
      | .ident psp sym =>
        have hobj : sizeOf obj ≤ n := by
          simp at h
          omega
        have := ih obj hobj
        simp [unroll_member_path]
        omega
      | .computed psp pe => exact le_rfl
      | .privateName psp => exact le_rfl
    | .call sp c a t => exact le_rfl
    | .ident sp s => exact le_rfl
    | .lit sp l => exact le_rfl
    | .arrow sp b => exact le_rfl
    | .await sp a => exact le_rfl
    | .other sp es ss => exact le_rfl

theorem is_method_call_obj_sizeOf_lt (e : Expr) (mc : MethodCall)
    (h : is_method_call e = some mc) : sizeOf mc.obj < sizeOf e := by
  match e with
  | .call sp callee args typeArgs =>
    match callee with
    | .expr ce =>
      have hle := unroll_member_path_fst_sizeOf_le ce
      simp only [is_method_call] at h
      rcases hu : unroll_member_path ce with ⟨obj, path⟩
      rw [hu] at h hle
      simp only at hle
      match path with
      | [] => simp at h
      | p :: ps =>
        simp only [Option.some.injEq] at h
        subst h
        simp only
        simp
        omega
    | .superCallee sp2 => simp [is_method_call] at h
    | .importCallee sp2 => simp [is_method_call] at h
  | .member sp o p => simp [is_method_call] at h
  | .ident sp s => simp [is_method_call] at h
  | .lit sp l => simp [is_method_call] at h
  | .arrow sp b => simp [is_method_call] at h
  | .await sp a => simp [is_method_call] at h
  | .other sp es ss => simp [is_method_call] at h

theorem is_function_call_args_sizeOf_lt (e : Expr) (fc : FunctionCall)
    (h : is_function_call e = some fc) : sizeOf fc.args < sizeOf e := by
  match e with
  | .call sp callee args typeArgs =>
    match callee with
    | .expr ce =>
      simp only [is_function_call] at h
      rcases hu : unroll_member_path ce with ⟨base, path⟩
      rw [hu] at h
      match base with
      | .ident isp sym =>
        simp only [Option.some.injEq] at h
        subst h
        simp only
        simp
        omega
      | .call a b c d => simp at h
      | .member a b c => simp at h
      | .lit a b => simp at h
      | .arrow a b => simp at h
      | .await a b => simp at h
      | .other a b c => simp at h
    | .superCallee sp2 => simp [is_function_call] at h
    | .importCallee sp2 => simp [is_function_call] at h
  | .member sp o p => simp [is_function_call] at h
  | .ident sp s => simp [is_function_call] at h
  | .lit sp l => simp [is_function_call] at h
  | .arrow sp b => simp [is_function_call] at h
  | .await sp a => simp [is_function_call] at h
  | .other sp es ss => simp [is_function_call] at h

theorem trim_expr_sizeOf_le (e : Expr) : sizeOf (trim_expr e) ≤ sizeOf e := by
  suffices H : ∀ n (e : Expr), sizeOf e ≤ n → sizeOf (trim_expr e) ≤ sizeOf e from
    H (sizeOf e) e le_rfl
  intro n
  induction n with
  | zero =>
    intro e h
    cases e <;> simp_all
  | succ n ih =>
    intro e h
    match e with
    | .await sp arg =>
      have harg : sizeOf arg ≤ n := by simp at h; omega
      have := ih arg harg
      simp [trim_expr]
      omega
    | .member sp obj prop =>
      have hobj : sizeOf obj ≤ n := by simp at h; omega
      have := ih obj hobj
      simp [trim_expr]
      omega
    | .call sp c a t => exact le_rfl
    | .ident sp s => exact le_rfl
    | .lit sp l => exact le_rfl
    | .arrow sp b => exact le_rfl
    | .other sp es ss => exact le_rfl

/-- The loop inside `is_ignored_function_call` (visitor.rs lines 222-235):
look for a `FunctionCall`, descending through method-call receivers. -/
def is_ignored_function_call_loop (cfg : Config) (e : Expr) : Option FunctionCall :=
  match is_function_call e with
  | some fc => if is_ignored_function cfg fc.path then some fc else none
  | none =>
    match h : is_method_call e with
    | some mc => is_ignored_function_call_loop cfg mc.obj
    | none => none
termination_by sizeOf e
decreasing_by
  exact is_method_call_obj_sizeOf_lt e mc h

/-- `is_ignored_function_call` (visitor.rs lines 220-238). -/
def is_ignored_function_call (cfg : Config) (s : Stmt) : Option FunctionCall :=
  match s with
  | .expr _ e => is_ignored_function_call_loop cfg (trim_expr e)
  | _ => none

theorem loop_args_sizeOf_lt (cfg : Config) (e : Expr) (fc : FunctionCall)
    (h : is_ignored_function_call_loop cfg e = some fc) : sizeOf fc.args < sizeOf e := by
  induction e using is_ignored_function_call_loop.induct cfg with
  | case1 e fc0 hfc hign =>
    rw [is_ignored_function_call_loop.eq_def] at h
    split at h
    next fc1 heq =>
      rw [hfc] at heq
      injection heq with h2
      subst h2
      rw [if_pos hign] at h
      have : fc0 = fc := by injection h
      subst this
      exact is_function_call_args_sizeOf_lt e fc0 hfc
    next heq =>
      rw [hfc] at heq
      exact absurd heq (by simp)
  | case2 e fc0 hfc hign =>
    rw [is_ignored_function_call_loop.eq_def] at h
    split at h
    next fc1 heq =>
      rw [hfc] at heq
      injection heq with h2
      subst h2
      rw [if_neg hign] at h
      exact absurd h (by simp)
    next heq =>
      rw [hfc] at heq
      exact absurd heq (by simp)
  | case3 e hfc mc hmceq ih =>
    rw [is_ignored_function_call_loop.eq_def] at h
    split at h
    next fc1 heq =>
      rw [hfc] at heq
      exact absurd heq (by simp)
    next heq =>
      split at h
      next mc2 heq2 =>
        rw [hmceq] at heq2
        injection heq2 with h3
        subst h3
        have h1 := ih h
        have h2 := is_method_call_obj_sizeOf_lt e mc hmceq
        omega
      next heq2 =>
        rw [hmceq] at heq2
        exact absurd heq2 (by simp)
  | case4 e hfc hmceq =>
    rw [is_ignored_function_call_loop.eq_def] at h
    split at h
    next fc1 heq =>
      rw [hfc] at heq
      exact absurd heq (by simp)
    next heq =>
      split at h
      next mc2 heq2 =>
        rw [hmceq] at heq2
        exact absurd heq2 (by simp)
      next heq2 =>
        exact absurd h (by simp)

theorem ignored_args_sizeOf_lt (cfg : Config) (s : Stmt) (fc : FunctionCall)
    (h : is_ignored_function_call cfg s = some fc) : sizeOf fc.args < sizeOf s := by
  match s with
  | .expr sp e =>
    unfold is_ignored_function_call at h
    have h1 := loop_args_sizeOf_lt cfg (trim_expr e) fc h
    have h2 := trim_expr_sizeOf_le e
    simp
    omega
  | .breakStmt sp => simp [is_ignored_function_call] at h
  | .continueStmt sp => simp [is_ignored_function_call] at h
  | .decl sp a b => simp [is_ignored_function_call] at h
  | .ret sp a => simp [is_ignored_function_call] at h
  | .block sp a => simp [is_ignored_function_call] at h
  | .ifStmt sp a b c => simp [is_ignored_function_call] at h
  | .other sp a b => simp [is_ignored_function_call] at h

/-- The `matches!(stmt, Stmt::Break(_) | Stmt::Continue(_) | Stmt::Decl(_) |
Stmt::Return(_))` test of `visit_stmt` (visitor.rs lines 118-121). -/
def is_control_or_decl (s : Stmt) : Bool :=
  match s with
  | .breakStmt _ => true
  | .continueStmt _ => true
  | .decl _ _ _ => true
  | .ret _ _ => true
  | _ => false

mutual

/-- `Visitor::visit_expr` (visitor.rs lines 57-89).  If the expression is
an `it` call (per the visitor's `is_it_call_expr`), the `in_it_call_expr`
flag is raised around the recursion into the children and lowered after
(the Rust code `assert!`s that the flag was previously false; the model
continues past the assertion).  Otherwise, after recursing, the
method-call-suffix rule runs: if the flag is set and the expression is a
method call whose path is not an ignored method, a span from the end of
the receiver to the end of the call is appended. -/
def visit_expr (cfg : Config) (e : Expr) (st : VisitorState) : VisitorState :=
  if is_it_call_expr e then
    let st2 := visit_expr_children cfg e { st with inItCallExpr := true }
    { st2 with inItCallExpr := false }
  else
    let st1 := visit_expr_children cfg e st
    match is_method_call e with
    | some mc =>
      if st1.inItCallExpr && !is_ignored_method mc.path mc.args then
        { st1 with spans := st1.spans ++ [⟨mc.obj.spanOf.hi, mc.span.hi⟩] }
      else st1
    | none => st1
termination_by (sizeOf e, 1)

/-- The default swc traversal of an expression's children
(`swc_ecma_visit::visit_expr`), with each child dispatched back through
the overridden `visit_expr` / `visit_stmt`. -/
def visit_expr_children (cfg : Config) (e : Expr) (st : VisitorState) : VisitorState :=
  match e with
  | .call _ callee args _ => visit_expr_list cfg args (visit_callee cfg callee st)
  | .member _ obj prop => visit_member_prop cfg prop (visit_expr cfg obj st)
  | .ident _ _ => st
  | .lit _ _ => st
  | .arrow _ body => visit_arrow_body cfg body st
  | .await _ arg => visit_expr cfg arg st
  | .other _ exprs stmts => visit_stmt_list cfg stmts (visit_expr_list cfg exprs st)
termination_by (sizeOf e, 0)

/-- Default traversal of a `Callee`. -/
def visit_callee (cfg : Config) (c : Callee) (st : VisitorState) : VisitorState :=
  match c with
  | .expr e => visit_expr cfg e st
  | .superCallee _ => st
  | .importCallee _ => st
termination_by (sizeOf c, 0)

/-- Default traversal of a `MemberProp` (computed properties contain an
expression). -/
def visit_member_prop (cfg : Config) (p : MemberProp) (st : VisitorState) : VisitorState :=
  match p with
  | .ident _ _ => st
  | .computed _ e => visit_expr cfg e st
  | .privateName _ => st
termination_by (sizeOf p, 0)

/-- Default traversal of an arrow-function body. -/
def visit_arrow_body (cfg : Config) (b : ArrowBody) (st : VisitorState) : VisitorState :=
  match b with
  | .block _ stmts => visit_stmt_list cfg stmts st
  | .expr e => visit_expr cfg e st
termination_by (sizeOf b, 0)

/-- `Visitor::visit_stmt` (visitor.rs lines 91-129).  An ignored function
call statement has only its argument expressions (and its type-argument
subtree, a no-op here) visited.  Otherwise the statement's children are
visited; if that recursion visited no statement leaves, this statement is
itself a leaf: the counter is incremented and, when the flag is set and
the statement is not a break/continue/declaration/return, the statement's
own span is appended. -/
def visit_stmt (cfg : Config) (s : Stmt) (st : VisitorState) : VisitorState :=
  match h : is_ignored_function_call cfg s with
  | some fc => visit_expr_list cfg fc.args st
  | none =>
    let nBefore := st.nStmtLeavesVisited
    let st1 := visit_stmt_children cfg s st
    if st1.nStmtLeavesVisited != nBefore then st1
    else
      let st2 := { st1 with nStmtLeavesVisited := st1.nStmtLeavesVisited + 1 }
      if st2.inItCallExpr && !is_control_or_decl s then
        { st2 with spans := st2.spans ++ [s.spanOf] }
      else st2
termination_by (sizeOf s, 1)
decreasing_by
all_goals first
  | exact Prod.Lex.left _ _ (ignored_args_sizeOf_lt cfg s fc h)
  | decreasing_tactic

/-- The default swc traversal of a statement's children
(`swc_ecma_visit::visit_stmt`). -/
def visit_stmt_children (cfg : Config) (s : Stmt) (st : VisitorState) : VisitorState :=
  match s with
  | .expr _ e => visit_expr cfg e st
  | .breakStmt _ => st
  | .continueStmt _ => st
  | .decl _ exprs stmts => visit_stmt_list cfg stmts (visit_expr_list cfg exprs st)
  | .ret _ arg =>
    match arg with
    | some a => visit_expr cfg a st
    | none => st
  | .block _ stmts => visit_stmt_list cfg stmts st
  | .ifStmt _ test cons alt =>
    let st1 := visit_stmt cfg cons (visit_expr cfg test st)
    match alt with
    | some a => visit_stmt cfg a st1
    | none => st1
  | .other _ exprs stmts => visit_stmt_list cfg stmts (visit_expr_list cfg exprs st)
termination_by (sizeOf s, 0)

/-- Visit a list of expressions in order (e.g. call arguments). -/
def visit_expr_list (cfg : Config) (es : List Expr) (st : VisitorState) : VisitorState :=
  match es with
  | [] => st
  | e :: rest => visit_expr_list cfg rest (visit_expr cfg e st)
termination_by (sizeOf es, 0)

/-- Visit a list of statements in order (block bodies, module body). -/
def visit_stmt_list (cfg : Config) (ss : List Stmt) (st : VisitorState) : VisitorState :=
  match ss with
  | [] => st
  | s :: rest => visit_stmt_list cfg rest (visit_stmt cfg s st)
termination_by (sizeOf ss, 0)

end

/-- `visit` (visitor.rs lines 18-28): run the visitor, freshly
initialized, over the module body and return the collected spans. -/
def visit (cfg : Config) (m : Module) : List Spn :=
  (visit_stmt_list cfg m.body ⟨false, 0, []⟩).spans

end visitor

namespace hardhat_ts

/-- `Test` (frameworks/src/hardhat_ts/mod.rs): the `it` message and the
body statements of a recognized test case. -/
structure Test where
  it_message : String
  stmts : List Stmt

/-- `is_it_call_expr` (frameworks/src/hardhat_ts/mod.rs lines 432-454):
the full test-case recognizer.  It yields a `Test` iff the expression is
a call of a plain identifier `it` with exactly two arguments, the first a
string literal (the message) and the second an arrow function whose body
is a block (the body statements). -/
def is_it_call_expr (e : Expr) : Option Test :=
  match e with
  | .call _ (.expr (.ident _ sym)) [arg0, arg1] _ =>
    if sym == "it" then
      match arg0, arg1 with
      | .lit _ (.str value), .arrow _ (.block _ stmts) => some ⟨value, stmts⟩
      | _, _ => none
    else none
  | _ => none

end hardhat_ts

/-- A `Config` with no user-configured ignored functions (the hard-coded
`assert`/`expect` rules of `is_ignored_function` apply regardless). -/
def emptyConfig : Config := ⟨[]⟩

/-! Concrete AST of the module `it("a", async () => { await contract.foo(); });`
(spec §8 scenario 1), with byte offsets of that source text. -/

/-- The identifier `contract` (bytes 28-36). -/
def a_contract : Expr := .ident ⟨28, 36⟩ "contract"

/-- The member access `contract.foo` (bytes 28-40). -/
def a_member : Expr := .member ⟨28, 40⟩ a_contract (.ident ⟨37, 40⟩ "foo")

/-- The call `contract.foo()` (bytes 28-42). -/
def a_call : Expr := .call ⟨28, 42⟩ (.expr a_member) [] none

/-- The expression `await contract.foo()` (bytes 22-42). -/
def a_await : Expr := .await ⟨22, 42⟩ a_call

/-- The statement `await contract.foo();` (bytes 22-43). -/
def a_stmt : Stmt := .expr ⟨22, 43⟩ a_await

/-- The arrow function `async () => { await contract.foo(); }` (bytes 8-45). -/
def a_arrow : Expr := .arrow ⟨8, 45⟩ (.block ⟨20, 45⟩ [a_stmt])

/-- The whole `it(...)` call of scenario 1 (bytes 0-46). -/
def a_it : Expr := .call ⟨0, 46⟩ (.expr (.ident ⟨0, 2⟩ "it")) [.lit ⟨3, 6⟩ (.str "a"), a_arrow] none

/-- The top-level statement of scenario 1 (bytes 0-47). -/
def a_top : Stmt := .expr ⟨0, 47⟩ a_it

/-- The module of scenario 1. -/
def module_a : Module := ⟨[a_top]⟩

/-! Concrete AST of the module `it("c", () => { expect(x).to.equal(1); });`
(spec §8 scenario 3), with byte offsets of that source text. -/

/-- The identifier `x` (bytes 23-24). -/
def c_x : Expr := .ident ⟨23, 24⟩ "x"

/-- The call `expect(x)` (bytes 16-25). -/
def c_expect_call : Expr := .call ⟨16, 25⟩ (.expr (.ident ⟨16, 22⟩ "expect")) [c_x] none

/-- The member access `expect(x).to` (bytes 16-28). -/
def c_to : Expr := .member ⟨16, 28⟩ c_expect_call (.ident ⟨26, 28⟩ "to")

/-- The member access `expect(x).to.equal` (bytes 16-34). -/
def c_equal : Expr := .member ⟨16, 34⟩ c_to (.ident ⟨29, 34⟩ "equal")

/-- The call `expect(x).to.equal(1)` (bytes 16-37). -/
def c_call : Expr := .call ⟨16, 37⟩ (.expr c_equal) [.lit ⟨35, 36⟩ .otherLit] none

/-- The statement `expect(x).to.equal(1);` (bytes 16-38). -/
def c_stmt : Stmt := .expr ⟨16, 38⟩ c_call

/-- The arrow function of scenario 3 (bytes 8-40). -/
def c_arrow : Expr := .arrow ⟨8, 40⟩ (.block ⟨14, 40⟩ [c_stmt])

/-- The whole `it(...)` call of scenario 3 (bytes 0-41). -/
def c_it : Expr := .call ⟨0, 41⟩ (.expr (.ident ⟨0, 2⟩ "it")) [.lit ⟨3, 6⟩ (.str "c"), c_arrow] none

/-- The top-level statement of scenario 3 (bytes 0-42). -/
def c_top : Stmt := .expr ⟨0, 42⟩ c_it

/-- The module of scenario 3. -/
def module_c : Module := ⟨[c_top]⟩

/-! Concrete AST of the module `it("f", () => { return x; });`
(spec §8 scenario 6), with byte offsets of that source text. -/

/-- The statement `return x;` (bytes 16-25). -/
def f_ret : Stmt := .ret ⟨16, 25⟩ (some (.ident ⟨23, 24⟩ "x"))

/-- The arrow function of scenario 6 (bytes 8-27). -/
def f_arrow : Expr := .arrow ⟨8, 27⟩ (.block ⟨14, 27⟩ [f_ret])

/-- The whole `it(...)` call of scenario 6 (bytes 0-28). -/
def f_it : Expr := .call ⟨0, 28⟩ (.expr (.ident ⟨0, 2⟩ "it")) [.lit ⟨3, 6⟩ (.str "f"), f_arrow] none

/-- The top-level statement of scenario 6 (bytes 0-29). -/
def f_top : Stmt := .expr ⟨0, 29⟩ f_it

/-- The module of scenario 6. -/
def module_f : Module := ⟨[f_top]⟩

/-! Concrete AST of the module `it("t", () => { if (x) { return; } });`,
with byte offsets of that source text. -/

/-- The statement `return;` (bytes 25-32). -/
def t_ret : Stmt := .ret ⟨25, 32⟩ none

/-- The statement `if (x) { return; }` (bytes 16-34). -/
def t_if : Stmt := .ifStmt ⟨16, 34⟩ (.ident ⟨20, 21⟩ "x") (.block ⟨23, 34⟩ [t_ret]) none

/-- The arrow function `() => { if (x) { return; } }` (bytes 8-36). -/
def t_arrow : Expr := .arrow ⟨8, 36⟩ (.block ⟨14, 36⟩ [t_if])

/-- The whole `it(...)` call (bytes 0-37). -/
def t_it : Expr := .call ⟨0, 37⟩ (.expr (.ident ⟨0, 2⟩ "it")) [.lit ⟨3, 6⟩ (.str "t"), t_arrow] none

/-- The top-level statement (bytes 0-38). -/
def t_top : Stmt := .expr ⟨0, 38⟩ t_it

/-- The module `it("t", () => { if (x) { return; } });`. -/
def module_t : Module := ⟨[t_top]⟩

/-! Concrete AST of the expression `it(a.b())` — a call to `it` that does
not satisfy the full recognizer (one argument, and it is not a string
literal). -/

/-- The call `a.b()` (bytes 3-8; `a` is bytes 3-4). -/
def ab_call : Expr :=
  .call ⟨3, 8⟩ (.expr (.member ⟨3, 6⟩ (.ident ⟨3, 4⟩ "a") (.ident ⟨5, 6⟩ "b"))) [] none

/-- The expression `it(a.b())` (bytes 0-9). -/
def expr_it_ab : Expr := .call ⟨0, 9⟩ (.expr (.ident ⟨0, 2⟩ "it")) [ab_call] none

namespace visitor

theorem visit_expr_list_nil (cfg : Config) (st : VisitorState) :
    visit_expr_list cfg [] st = st := by
  rw [visit_expr_list.eq_def]

theorem visit_expr_list_cons (cfg : Config) (e : Expr) (rest : List Expr) (st : VisitorState) :
    visit_expr_list cfg (e :: rest) st = visit_expr_list cfg rest (visit_expr cfg e st) := by
  rw [visit_expr_list.eq_def]

theorem visit_stmt_list_nil (cfg : Config) (st : VisitorState) :
    visit_stmt_list cfg [] st = st := by
  rw [visit_stmt_list.eq_def]

theorem visit_stmt_list_cons (cfg : Config) (s : Stmt) (rest : List Stmt) (st : VisitorState) :
    visit_stmt_list cfg (s :: rest) st = visit_stmt_list cfg rest (visit_stmt cfg s st) := by
  rw [visit_stmt_list.eq_def]

/-- Unfolding of `visit_expr` on a recognized (by the visitor) `it` call:
the flag is raised for the traversal of the children and lowered after. -/
theorem visit_expr_it (cfg : Config) (e : Expr) (st : VisitorState)
    (h : is_it_call_expr e = true) :
    visit_expr cfg e st =
      { visit_expr_children cfg e { st with inItCallExpr := true } with inItCallExpr := false } := by
  rw [visit_expr.eq_def, if_pos h]

/-- Unfolding of `visit_expr` on an expression that is neither an `it`
call nor a method call: just the children traversal. -/
theorem visit_expr_plain (cfg : Config) (e : Expr) (st : VisitorState)
    (h1 : is_it_call_expr e = false) (h2 : is_method_call e = none) :
    visit_expr cfg e st = visit_expr_children cfg e st := by
  rw [visit_expr.eq_def]
  rw [if_neg (by simp [h1])]
  rw [h2]

/-- Unfolding of `visit_expr` on a method call (necessarily not an `it`
call): children traversal, then the method-call-suffix rule. -/
theorem visit_expr_method (cfg : Config) (e : Expr) (st : VisitorState) (mc : MethodCall)
    (h1 : is_it_call_expr e = false) (h2 : is_method_call e = some mc) :
    visit_expr cfg e st =
      (if (visit_expr_children cfg e st).inItCallExpr && !is_ignored_method mc.path mc.args then
        { visit_expr_children cfg e st with
            spans := (visit_expr_children cfg e st).spans ++ [⟨mc.obj.spanOf.hi, mc.span.hi⟩] }
      else visit_expr_children cfg e st) := by
  rw [visit_expr.eq_def]
  rw [if_neg (by simp [h1])]
  rw [h2]

/-- Unfolding of `visit_stmt` on an ignored function call statement: only
the arguments of the discovered call are visited. -/
theorem visit_stmt_ignored (cfg : Config) (s : Stmt) (st : VisitorState) (fc : FunctionCall)
    (h : is_ignored_function_call cfg s = some fc) :
    visit_stmt cfg s st = visit_expr_list cfg fc.args st := by
  rw [visit_stmt.eq_def]
  split
  next fc1 heq =>
    rw [h] at heq
    injection heq with h2
    rw [h2]
  next heq =>
    rw [h] at heq
    exact absurd heq (by simp)

/-- Unfolding of `visit_stmt` on a statement that is not an ignored
function call: the children are visited and the leaf rule runs. -/
theorem visit_stmt_normal (cfg : Config) (s : Stmt) (st : VisitorState)
    (h : is_ignored_function_call cfg s = none) :
    visit_stmt cfg s st =
      (let st1 := visit_stmt_children cfg s st
       if st1.nStmtLeavesVisited != st.nStmtLeavesVisited then st1
       else if st1.inItCallExpr && !is_control_or_decl s then
         { st1 with nStmtLeavesVisited := st1.nStmtLeavesVisited + 1,
                    spans := st1.spans ++ [s.spanOf] }
       else { st1 with nStmtLeavesVisited := st1.nStmtLeavesVisited + 1 }) := by
  rw [visit_stmt.eq_def]
  split
  next fc1 heq =>
    rw [h] at heq
    exact absurd heq (by simp)
  next heq => rfl

theorem visit_expr_ident (cfg : Config) (sp : Spn) (sym : String) (st : VisitorState) :
    visit_expr cfg (.ident sp sym) st = st := by
  rw [visit_expr_plain cfg (.ident sp sym) st rfl rfl, visit_expr_children.eq_def]

theorem visit_expr_lit (cfg : Config) (sp : Spn) (l : Lit) (st : VisitorState) :
    visit_expr cfg (.lit sp l) st = st := by
  rw [visit_expr_plain cfg (.lit sp l) st rfl rfl, visit_expr_children.eq_def]

theorem visit_expr_children_call (cfg : Config) (sp : Spn) (callee : Callee)
    (args : List Expr) (ta : Option TypeArgs) (st : VisitorState) :
    visit_expr_children cfg (.call sp callee args ta) st =
      visit_expr_list cfg args (visit_callee cfg callee st) := by
  rw [visit_expr_children.eq_def]

theorem visit_expr_children_member (cfg : Config) (sp : Spn) (obj : Expr)
    (prop : MemberProp) (st : VisitorState) :
    visit_expr_children cfg (.member sp obj prop) st =
      visit_member_prop cfg prop (visit_expr cfg obj st) := by
  rw [visit_expr_children.eq_def]

theorem visit_expr_children_arrow (cfg : Config) (sp : Spn) (body : ArrowBody)
    (st : VisitorState) :
    visit_expr_children cfg (.arrow sp body) st = visit_arrow_body cfg body st := by
  rw [visit_expr_children.eq_def]

theorem visit_expr_children_await (cfg : Config) (sp : Spn) (arg : Expr) (st : VisitorState) :
    visit_expr_children cfg (.await sp arg) st = visit_expr cfg arg st := by
  rw [visit_expr_children.eq_def]

theorem visit_callee_expr (cfg : Config) (e : Expr) (st : VisitorState) :
    visit_callee cfg (.expr e) st = visit_expr cfg e st := by
  rw [visit_callee.eq_def]

theorem visit_member_prop_ident (cfg : Config) (sp : Spn) (sym : String) (st : VisitorState) :
    visit_member_prop cfg (.ident sp sym) st = st := by
  rw [visit_member_prop.eq_def]

theorem visit_arrow_body_block (cfg : Config) (sp : Spn) (stmts : List Stmt)
    (st : VisitorState) :
    visit_arrow_body cfg (.block sp stmts) st = visit_stmt_list cfg stmts st := by
  rw [visit_arrow_body.eq_def]

theorem visit_stmt_children_expr (cfg : Config) (sp : Spn) (e : Expr) (st : VisitorState) :
    visit_stmt_children cfg (.expr sp e) st = visit_expr cfg e st := by
  rw [visit_stmt_children.eq_def]

theorem visit_stmt_children_ret_some (cfg : Config) (sp : Spn) (a : Expr) (st : VisitorState) :
    visit_stmt_children cfg (.ret sp (some a)) st = visit_expr cfg a st := by
  rw [visit_stmt_children.eq_def]

theorem visit_stmt_children_ret_none (cfg : Config) (sp : Spn) (st : VisitorState) :
    visit_stmt_children cfg (.ret sp none) st = st := by
  rw [visit_stmt_children.eq_def]

theorem visit_stmt_children_block (cfg : Config) (sp : Spn) (stmts : List Stmt)
    (st : VisitorState) :
    visit_stmt_children cfg (.block sp stmts) st = visit_stmt_list cfg stmts st := by
  rw [visit_stmt_children.eq_def]

theorem visit_stmt_children_if_none (cfg : Config) (sp : Spn) (test : Expr) (cons : Stmt)
    (st : VisitorState) :
    visit_stmt_children cfg (.ifStmt sp test cons none) st =
      visit_stmt cfg cons (visit_expr cfg test st) := by
  rw [visit_stmt_children.eq_def]

theorem visit_eq (cfg : Config) (m : Module) :
    visit cfg m = (visit_stmt_list cfg m.body ⟨false, 0, []⟩).spans := rfl

/-- Full evaluation of the visitor on scenario 1: the method-call-suffix
span `.foo()` (bytes 36-42) is emitted during the post-order visit of
`contract.foo()`, and the whole statement `await contract.foo();`
(bytes 22-43) is emitted as a leaf statement. -/
theorem eval_module_a : visit emptyConfig module_a = [⟨36, 42⟩, ⟨22, 43⟩] := by
  have h2 : visit_expr emptyConfig a_member ⟨true, 0, []⟩ = ⟨true, 0, []⟩ := by
    rw [visit_expr_plain emptyConfig a_member ⟨true, 0, []⟩ rfl rfl,
      show a_member = Expr.member ⟨28, 40⟩ a_contract (.ident ⟨37, 40⟩ "foo") from rfl,
      visit_expr_children_member,
      show a_contract = Expr.ident ⟨28, 36⟩ "contract" from rfl,
      visit_expr_ident, visit_member_prop_ident]
  have h3 : visit_expr emptyConfig a_call ⟨true, 0, []⟩ = ⟨true, 0, [⟨36, 42⟩]⟩ := by
    have hch : visit_expr_children emptyConfig a_call ⟨true, 0, []⟩ = ⟨true, 0, []⟩ := by
      rw [show a_call = Expr.call ⟨28, 42⟩ (.expr a_member) [] none from rfl,
        visit_expr_children_call, visit_callee_expr, h2, visit_expr_list_nil]
    rw [visit_expr_method emptyConfig a_call ⟨true, 0, []⟩
      ⟨⟨28, 42⟩, a_contract, ["foo"], [], none⟩ rfl rfl, hch]
    rfl
  have h4 : visit_expr emptyConfig a_await ⟨true, 0, []⟩ = ⟨true, 0, [⟨36, 42⟩]⟩ := by
    rw [visit_expr_plain emptyConfig a_await ⟨true, 0, []⟩ rfl rfl,
      show a_await = Expr.await ⟨22, 42⟩ a_call from rfl,
      visit_expr_children_await, h3]
  have hig1 : is_ignored_function_call emptyConfig a_stmt = none := by
    show is_ignored_function_call_loop emptyConfig (trim_expr a_await) = none
    rw [is_ignored_function_call_loop.eq_def]
    rfl
  have h5 : visit_stmt emptyConfig a_stmt ⟨true, 0, []⟩ = ⟨true, 1, [⟨36, 42⟩, ⟨22, 43⟩]⟩ := by
    rw [visit_stmt_normal emptyConfig a_stmt ⟨true, 0, []⟩ hig1]
    have hch : visit_stmt_children emptyConfig a_stmt ⟨true, 0, []⟩ = ⟨true, 0, [⟨36, 42⟩]⟩ := by
      rw [show a_stmt = Stmt.expr ⟨22, 43⟩ a_await from rfl, visit_stmt_children_expr, h4]
    simp only [hch]
    rfl
  have h7 : visit_expr emptyConfig a_arrow ⟨true, 0, []⟩ = ⟨true, 1, [⟨36, 42⟩, ⟨22, 43⟩]⟩ := by
    rw [visit_expr_plain emptyConfig a_arrow ⟨true, 0, []⟩ rfl rfl,
      show a_arrow = Expr.arrow ⟨8, 45⟩ (.block ⟨20, 45⟩ [a_stmt]) from rfl,
      visit_expr_children_arrow, visit_arrow_body_block,
      visit_stmt_list_cons, h5, visit_stmt_list_nil]
  have h8 : visit_expr emptyConfig a_it ⟨false, 0, []⟩ = ⟨false, 1, [⟨36, 42⟩, ⟨22, 43⟩]⟩ := by
    rw [visit_expr_it emptyConfig a_it ⟨false, 0, []⟩ rfl,
      show ({ (⟨false, 0, []⟩ : VisitorState) with inItCallExpr := true } : VisitorState)
        = (⟨true, 0, []⟩ : VisitorState) from rfl,
      show a_it = Expr.call ⟨0, 46⟩ (.expr (.ident ⟨0, 2⟩ "it"))
        [.lit ⟨3, 6⟩ (.str "a"), a_arrow] none from rfl,
      visit_expr_children_call, visit_callee_expr, visit_expr_ident,
      visit_expr_list_cons, visit_expr_lit, visit_expr_list_cons, h7, visit_expr_list_nil]
  have hig2 : is_ignored_function_call emptyConfig a_top = none := by
    show is_ignored_function_call_loop emptyConfig (trim_expr a_it) = none
    rw [is_ignored_function_call_loop.eq_def]
    rfl
  have h9 : visit_stmt emptyConfig a_top ⟨false, 0, []⟩ = ⟨false, 1, [⟨36, 42⟩, ⟨22, 43⟩]⟩ := by
    rw [visit_stmt_normal emptyConfig a_top ⟨false, 0, []⟩ hig2]
    have hch : visit_stmt_children emptyConfig a_top ⟨false, 0, []⟩
        = ⟨false, 1, [⟨36, 42⟩, ⟨22, 43⟩]⟩ := by
      rw [show a_top = Stmt.expr ⟨0, 47⟩ a_it from rfl, visit_stmt_children_expr, h8]
    simp only [hch]
    rfl
  rw [visit_eq, show module_a.body = [a_top] from rfl,
    visit_stmt_list_cons, h9, visit_stmt_list_nil]

/-- Full evaluation of the visitor on scenario 3: the statement
`expect(x).to.equal(1);` is an ignored function call statement (the inner
call `expect(x)` has the ignored path `expect`), so only its argument `x`
is visited; no spans are emitted anywhere. -/
theorem eval_module_c : visit emptyConfig module_c = [] := by
  have hig1 : is_ignored_function_call emptyConfig c_stmt =
      some ⟨⟨16, 25⟩, ["expect"], [c_x], none⟩ := by
    show is_ignored_function_call_loop emptyConfig (trim_expr c_call) = _
    rw [is_ignored_function_call_loop.eq_def]
    show is_ignored_function_call_loop emptyConfig c_expect_call = _
    rw [is_ignored_function_call_loop.eq_def]
    rfl
  have h3 : visit_stmt emptyConfig c_stmt ⟨true, 0, []⟩ = ⟨true, 0, []⟩ := by
    rw [visit_stmt_ignored emptyConfig c_stmt ⟨true, 0, []⟩ _ hig1,
      visit_expr_list_cons,
      show c_x = Expr.ident ⟨23, 24⟩ "x" from rfl,
      visit_expr_ident, visit_expr_list_nil]
  have h4 : visit_expr emptyConfig c_arrow ⟨true, 0, []⟩ = ⟨true, 0, []⟩ := by
    rw [visit_expr_plain emptyConfig c_arrow ⟨true, 0, []⟩ rfl rfl,
      show c_arrow = Expr.arrow ⟨8, 40⟩ (.block ⟨14, 40⟩ [c_stmt]) from rfl,
      visit_expr_children_arrow, visit_arrow_body_block,
      visit_stmt_list_cons, h3, visit_stmt_list_nil]
  have h5 : visit_expr emptyConfig c_it ⟨false, 0, []⟩ = ⟨false, 0, []⟩ := by
    rw [visit_expr_it emptyConfig c_it ⟨false, 0, []⟩ rfl,
      show ({ (⟨false, 0, []⟩ : VisitorState) with inItCallExpr := true } : VisitorState)
        = (⟨true, 0, []⟩ : VisitorState) from rfl,
      show c_it = Expr.call ⟨0, 41⟩ (.expr (.ident ⟨0, 2⟩ "it"))
        [.lit ⟨3, 6⟩ (.str "c"), c_arrow] none from rfl,
      visit_expr_children_call, visit_callee_expr, visit_expr_ident,
      visit_expr_list_cons, visit_expr_lit, visit_expr_list_cons, h4, visit_expr_list_nil]
  have hig2 : is_ignored_function_call emptyConfig c_top = none := by
    show is_ignored_function_call_loop emptyConfig (trim_expr c_it) = none
    rw [is_ignored_function_call_loop.eq_def]
    rfl
  have h6 : visit_stmt emptyConfig c_top ⟨false, 0, []⟩ = ⟨false, 1, []⟩ := by
    rw [visit_stmt_normal emptyConfig c_top ⟨false, 0, []⟩ hig2]
    have hch : visit_stmt_children emptyConfig c_top ⟨false, 0, []⟩ = ⟨false, 0, []⟩ := by
      rw [show c_top = Stmt.expr ⟨0, 42⟩ c_it from rfl, visit_stmt_children_expr, h5]
    simp only [hch]
    rfl
  rw [visit_eq, show module_c.body = [c_top] from rfl,
    visit_stmt_list_cons, h6, visit_stmt_list_nil]

/-- Full evaluation of the visitor on scenario 6: the `return x;`
statement is a leaf (the counter is incremented) but `return` statements
are excluded from span emission, so no spans are emitted. -/
theorem eval_module_f : visit emptyConfig module_f = [] := by
  have h1 : visit_stmt emptyConfig f_ret ⟨true, 0, []⟩ = ⟨true, 1, []⟩ := by
    rw [visit_stmt_normal emptyConfig f_ret ⟨true, 0, []⟩ rfl]
    have hch : visit_stmt_children emptyConfig f_ret ⟨true, 0, []⟩ = ⟨true, 0, []⟩ := by
      rw [show f_ret = Stmt.ret ⟨16, 25⟩ (some (.ident ⟨23, 24⟩ "x")) from rfl,
        visit_stmt_children_ret_some, visit_expr_ident]
    simp only [hch]
    rfl
  have h2 : visit_expr emptyConfig f_arrow ⟨true, 0, []⟩ = ⟨true, 1, []⟩ := by
    rw [visit_expr_plain emptyConfig f_arrow ⟨true, 0, []⟩ rfl rfl,
      show f_arrow = Expr.arrow ⟨8, 27⟩ (.block ⟨14, 27⟩ [f_ret]) from rfl,
      visit_expr_children_arrow, visit_arrow_body_block,
      visit_stmt_list_cons, h1, visit_stmt_list_nil]
  have h3 : visit_expr emptyConfig f_it ⟨false, 0, []⟩ = ⟨false, 1, []⟩ := by
    rw [visit_expr_it emptyConfig f_it ⟨false, 0, []⟩ rfl,
      show ({ (⟨false, 0, []⟩ : VisitorState) with inItCallExpr := true } : VisitorState)
        = (⟨true, 0, []⟩ : VisitorState) from rfl,
      show f_it = Expr.call ⟨0, 28⟩ (.expr (.ident ⟨0, 2⟩ "it"))
        [.lit ⟨3, 6⟩ (.str "f"), f_arrow] none from rfl,
      visit_expr_children_call, visit_callee_expr, visit_expr_ident,
      visit_expr_list_cons, visit_expr_lit, visit_expr_list_cons, h2, visit_expr_list_nil]
  have hig : is_ignored_function_call emptyConfig f_top = none := by
    show is_ignored_function_call_loop emptyConfig (trim_expr f_it) = none
    rw [is_ignored_function_call_loop.eq_def]
    rfl
  have h4 : visit_stmt emptyConfig f_top ⟨false, 0, []⟩ = ⟨false, 1, []⟩ := by
    rw [visit_stmt_normal emptyConfig f_top ⟨false, 0, []⟩ hig]
    have hch : visit_stmt_children emptyConfig f_top ⟨false, 0, []⟩ = ⟨false, 1, []⟩ := by
      rw [show f_top = Stmt.expr ⟨0, 29⟩ f_it from rfl, visit_stmt_children_expr, h3]
    simp only [hch]
    rfl
  rw [visit_eq, show module_f.body = [f_top] from rfl,
    visit_stmt_list_cons, h4, visit_stmt_list_nil]

/-- Full evaluation of the visitor on `it("t", () => { if (x) { return; } });`:
the `return;` is a leaf (counted, excluded from emission); the inner block
and the `if` both see the counter change and are classified internal, so
nothing is emitted. -/
theorem eval_module_t : visit emptyConfig module_t = [] := by
  have h1 : visit_stmt emptyConfig t_ret ⟨true, 0, []⟩ = ⟨true, 1, []⟩ := by
    rw [visit_stmt_normal emptyConfig t_ret ⟨true, 0, []⟩ rfl]
    have hch : visit_stmt_children emptyConfig t_ret ⟨true, 0, []⟩ = ⟨true, 0, []⟩ := by
      rw [show t_ret = Stmt.ret ⟨25, 32⟩ none from rfl, visit_stmt_children_ret_none]
    simp only [hch]
    rfl
  have h2 : visit_stmt emptyConfig (.block ⟨23, 34⟩ [t_ret]) ⟨true, 0, []⟩ = ⟨true, 1, []⟩ := by
    rw [visit_stmt_normal emptyConfig (.block ⟨23, 34⟩ [t_ret]) ⟨true, 0, []⟩ rfl]
    have hch : visit_stmt_children emptyConfig (.block ⟨23, 34⟩ [t_ret]) ⟨true, 0, []⟩
        = ⟨true, 1, []⟩ := by
      rw [visit_stmt_children_block, visit_stmt_list_cons, h1, visit_stmt_list_nil]
    simp only [hch]
    rfl
  have h3 : visit_stmt emptyConfig t_if ⟨true, 0, []⟩ = ⟨true, 1, []⟩ := by
    rw [visit_stmt_normal emptyConfig t_if ⟨true, 0, []⟩ rfl]
    have hch : visit_stmt_children emptyConfig t_if ⟨true, 0, []⟩ = ⟨true, 1, []⟩ := by
      rw [show t_if = Stmt.ifStmt ⟨16, 34⟩ (.ident ⟨20, 21⟩ "x")
          (.block ⟨23, 34⟩ [t_ret]) none from rfl,
        visit_stmt_children_if_none, visit_expr_ident, h2]
    simp only [hch]
    rfl
  have h4 : visit_expr emptyConfig t_arrow ⟨true, 0, []⟩ = ⟨true, 1, []⟩ := by
    rw [visit_expr_plain emptyConfig t_arrow ⟨true, 0, []⟩ rfl rfl,
      show t_arrow = Expr.arrow ⟨8, 36⟩ (.block ⟨14, 36⟩ [t_if]) from rfl,
      visit_expr_children_arrow, visit_arrow_body_block,
      visit_stmt_list_cons, h3, visit_stmt_list_nil]
  have h5 : visit_expr emptyConfig t_it ⟨false, 0, []⟩ = ⟨false, 1, []⟩ := by
    rw [visit_expr_it emptyConfig t_it ⟨false, 0, []⟩ rfl,
      show ({ (⟨false, 0, []⟩ : VisitorState) with inItCallExpr := true } : VisitorState)
        = (⟨true, 0, []⟩ : VisitorState) from rfl,
      show t_it = Expr.call ⟨0, 37⟩ (.expr (.ident ⟨0, 2⟩ "it"))
        [.lit ⟨3, 6⟩ (.str "t"), t_arrow] none from rfl,
      visit_expr_children_call, visit_callee_expr, visit_expr_ident,
      visit_expr_list_cons, visit_expr_lit, visit_expr_list_cons, h4, visit_expr_list_nil]
  have hig : is_ignored_function_call emptyConfig t_top = none := by
    show is_ignored_function_call_loop emptyConfig (trim_expr t_it) = none
    rw [is_ignored_function_call_loop.eq_def]
    rfl
  have h6 : visit_stmt emptyConfig t_top ⟨false, 0, []⟩ = ⟨false, 1, []⟩ := by
    rw [visit_stmt_normal emptyConfig t_top ⟨false, 0, []⟩ hig]
    have hch : visit_stmt_children emptyConfig t_top ⟨false, 0, []⟩ = ⟨false, 1, []⟩ := by
      rw [show t_top = Stmt.expr ⟨0, 38⟩ t_it from rfl, visit_stmt_children_expr, h5]
    simp only [hch]
    rfl
  rw [visit_eq, show module_t.body = [t_top] from rfl,
    visit_stmt_list_cons, h6, visit_stmt_list_nil]

/-- Full evaluation of the visitor on the lone expression `it(a.b())`: the
visitor's `is_it_call_expr` looks only at the callee, so test-case mode is
entered, and the method-call-suffix span `.b()` (bytes 4-8) is emitted
from inside the malformed `it` call. -/
theorem eval_expr_it_ab :
    visit_expr emptyConfig expr_it_ab ⟨false, 0, []⟩ = ⟨false, 0, [⟨4, 8⟩]⟩ := by
  have h1 : visit_expr emptyConfig ab_call ⟨true, 0, []⟩ = ⟨true, 0, [⟨4, 8⟩]⟩ := by
    have hch : visit_expr_children emptyConfig ab_call ⟨true, 0, []⟩ = ⟨true, 0, []⟩ := by
      rw [show ab_call = Expr.call ⟨3, 8⟩
          (.expr (.member ⟨3, 6⟩ (.ident ⟨3, 4⟩ "a") (.ident ⟨5, 6⟩ "b"))) [] none from rfl,
        visit_expr_children_call, visit_callee_expr,
        visit_expr_plain emptyConfig
          (.member ⟨3, 6⟩ (.ident ⟨3, 4⟩ "a") (.ident ⟨5, 6⟩ "b")) ⟨true, 0, []⟩ rfl rfl,
        visit_expr_children_member, visit_expr_ident, visit_member_prop_ident,
        visit_expr_list_nil]
    rw [visit_expr_method emptyConfig ab_call ⟨true, 0, []⟩
      ⟨⟨3, 8⟩, .ident ⟨3, 4⟩ "a", ["b"], [], none⟩ rfl rfl, hch]
    rfl
  rw [visit_expr_it emptyConfig expr_it_ab ⟨false, 0, []⟩ rfl,
    show ({ (⟨false, 0, []⟩ : VisitorState) with inItCallExpr := true } : VisitorState)
      = (⟨true, 0, []⟩ : VisitorState) from rfl,
    show expr_it_ab = Expr.call ⟨0, 9⟩ (.expr (.ident ⟨0, 2⟩ "it")) [ab_call] none from rfl,
    visit_expr_children_call, visit_callee_expr, visit_expr_ident,
    visit_expr_list_cons, h1, visit_expr_list_nil]

theorem visit_stmt_children_break (cfg : Config) (sp : Spn) (st : VisitorState) :
    visit_stmt_children cfg (.breakStmt sp) st = st := by
  rw [visit_stmt_children.eq_def]

theorem visit_stmt_children_continue (cfg : Config) (sp : Spn) (st : VisitorState) :
    visit_stmt_children cfg (.continueStmt sp) st = st := by
  rw [visit_stmt_children.eq_def]

theorem visit_stmt_children_decl_nil (cfg : Config) (sp : Spn) (st : VisitorState) :
    visit_stmt_children cfg (.decl sp [] []) st = st := by
  rw [visit_stmt_children.eq_def]
  show visit_stmt_list cfg [] (visit_expr_list cfg [] st) = st
  rw [visit_expr_list_nil, visit_stmt_list_nil]

/-- Visiting a lone `break;` counts it as a leaf (the counter is
incremented) but, it being excluded from emission, changes nothing else. -/
theorem visit_stmt_break_eq (cfg : Config) (sp : Spn) (st : VisitorState) :
    visit_stmt cfg (.breakStmt sp) st =
      { st with nStmtLeavesVisited := st.nStmtLeavesVisited + 1 } := by
  rw [visit_stmt_normal cfg (.breakStmt sp) st rfl]
  simp only [visit_stmt_children_break, bne_self_eq_false, Bool.false_eq_true, if_false,
    is_control_or_decl, Bool.not_true, Bool.and_false]

/-- Visiting a lone `continue;` counts it as a leaf but emits nothing. -/
theorem visit_stmt_continue_eq (cfg : Config) (sp : Spn) (st : VisitorState) :
    visit_stmt cfg (.continueStmt sp) st =
      { st with nStmtLeavesVisited := st.nStmtLeavesVisited + 1 } := by
  rw [visit_stmt_normal cfg (.continueStmt sp) st rfl]
  simp only [visit_stmt_children_continue, bne_self_eq_false, Bool.false_eq_true, if_false,
    is_control_or_decl, Bool.not_true, Bool.and_false]

/-- Visiting a lone `return;` counts it as a leaf but emits nothing. -/
theorem visit_stmt_ret_none_eq (cfg : Config) (sp : Spn) (st : VisitorState) :
    visit_stmt cfg (.ret sp none) st =
      { st with nStmtLeavesVisited := st.nStmtLeavesVisited + 1 } := by
  rw [visit_stmt_normal cfg (.ret sp none) st rfl]
  simp only [visit_stmt_children_ret_none, bne_self_eq_false, Bool.false_eq_true, if_false,
    is_control_or_decl, Bool.not_true, Bool.and_false]

/-- Visiting a childless declaration counts it as a leaf but emits nothing. -/
theorem visit_stmt_decl_nil_eq (cfg : Config) (sp : Spn) (st : VisitorState) :
    visit_stmt cfg (.decl sp [] []) st =
      { st with nStmtLeavesVisited := st.nStmtLeavesVisited + 1 } := by
  rw [visit_stmt_normal cfg (.decl sp [] []) st rfl]
  simp only [visit_stmt_children_decl_nil, bne_self_eq_false, Bool.false_eq_true, if_false,
    is_control_or_decl, Bool.not_true, Bool.and_false]

/-- A block whose only statement is `return;`: the recursion counts the
`return;` as a leaf, so the block is internal — it increments nothing
itself and emits no span, whatever the state. -/
theorem visit_stmt_block_ret_eq (cfg : Config) (sp rsp : Spn) (st : VisitorState) :
    visit_stmt cfg (.block sp [.ret rsp none]) st =
      { st with nStmtLeavesVisited := st.nStmtLeavesVisited + 1 } := by
  rw [visit_stmt_normal cfg (.block sp [.ret rsp none]) st rfl]
  have hch : visit_stmt_children cfg (.block sp [.ret rsp none]) st
      = { st with nStmtLeavesVisited := st.nStmtLeavesVisited + 1 } := by
    rw [visit_stmt_children_block, visit_stmt_list_cons, visit_stmt_ret_none_eq,
      visit_stmt_list_nil]
  simp only [hch]
  simp

/-- An `if` whose branch contains only `return;` emits no span for the
`return;` (excluded) and none for itself (internal, since the recursion
counted a leaf). -/
theorem visit_stmt_if_ret_eq (cfg : Config) (sp tsp csp rsp : Spn) (sym : String)
    (st : VisitorState) :
    visit_stmt cfg (.ifStmt sp (.ident tsp sym) (.block csp [.ret rsp none]) none) st =
      { st with nStmtLeavesVisited := st.nStmtLeavesVisited + 1 } := by
  rw [visit_stmt_normal cfg (.ifStmt sp (.ident tsp sym) (.block csp [.ret rsp none]) none)
    st rfl]
  have hch : visit_stmt_children cfg
      (.ifStmt sp (.ident tsp sym) (.block csp [.ret rsp none]) none) st
      = { st with nStmtLeavesVisited := st.nStmtLeavesVisited + 1 } := by
    rw [visit_stmt_children_if_none, visit_expr_ident, visit_stmt_block_ret_eq]
  simp only [hch]
  simp

/-- A method call is never the visitor's `it` call: `is_method_call`
requires the callee to unroll through at least one member access, while
`is_it_call_expr` requires the callee to be a plain identifier. -/
theorem is_method_call_imp_not_it (e : Expr) (mc : MethodCall)
    (h : is_method_call e = some mc) : is_it_call_expr e = false := by
  match e with
  | .call sp (.expr ce) args ta =>
    match ce with
    | .ident isp sym => simp [is_method_call, unroll_member_path] at h
    | .member msp obj prop => rfl
    | .call a b c d => rfl
    | .lit a b => rfl
    | .arrow a b => rfl
    | .await a b => rfl
    | .other a b c => rfl
  | .call sp (.superCallee s2) args ta => rfl
  | .call sp (.importCallee s2) args ta => rfl
  | .member a b c => rfl
  | .ident a b => rfl
  | .lit a b => rfl
  | .arrow a b => rfl
  | .await a b => rfl
  | .other a b c => rfl

end visitor

/-- Parser guarantee (spec §4.2: every node carries its own byte range,
containing its children's): along a member chain, each receiver ends no
later than the member expression containing it. -/
def member_obj_wf : Expr → Bool
  | .member sp obj _ => decide (obj.spanOf.hi ≤ sp.hi) && member_obj_wf obj
  | _ => true

/-- Parser guarantee restricted to what the method-call-suffix rule needs:
for a call, the callee ends no later than the call, and the callee's
member chain is well-formed. -/
def call_span_wf (e : Expr) : Bool :=
  match e with
  | .call sp (.expr callee) _ _ => decide (callee.spanOf.hi ≤ sp.hi) && member_obj_wf callee
  | _ => true

theorem member_obj_wf_unroll_le (e : Expr) (h : member_obj_wf e = true) :
    ((visitor.unroll_member_path e).1).spanOf.hi ≤ e.spanOf.hi := by
  suffices H : ∀ n (e : Expr), sizeOf e ≤ n → member_obj_wf e = true →
      ((visitor.unroll_member_path e).1).spanOf.hi ≤ e.spanOf.hi from
    H (sizeOf e) e le_rfl h
  intro n
  induction n with
  | zero =>
    intro e h _
    cases e <;> simp_all
  | succ n ih =>
    intro e hsz hwf
    match e with
    | .member sp obj prop =>
      simp only [member_obj_wf, Bool.and_eq_true, decide_eq_true_eq] at hwf
      match prop with
      | .ident psp sym =>
        have hobj : sizeOf obj ≤ n := by
          simp at hsz
          omega
        have h2 := ih obj hobj hwf.2
        show ((visitor.unroll_member_path obj).1).spanOf.hi ≤ sp.hi
        exact le_trans h2 hwf.1
      | .computed psp pe => exact le_rfl
      | .privateName psp => exact le_rfl
    | .call a b c d => exact le_rfl
    | .ident a b => exact le_rfl
    | .lit a b => exact le_rfl
    | .arrow a b => exact le_rfl
    | .await a b => exact le_rfl
    | .other a b c => exact le_rfl

/-- Under the parser guarantee, the method-call-suffix span is ordered:
the receiver's end does not exceed the call's end. -/
theorem method_call_span_le (e : Expr) (mc : visitor.MethodCall)
    (h : visitor.is_method_call e = some mc) (hwf : call_span_wf e = true) :
    mc.obj.spanOf.hi ≤ mc.span.hi := by
  match e with
  | .call sp (.expr ce) args ta =>
    simp only [visitor.is_method_call] at h
    rcases hu : visitor.unroll_member_path ce with ⟨obj, path⟩
    rw [hu] at h
    match path with
    | [] => simp at h
    | p :: ps =>
      simp only [Option.some.injEq] at h
      subst h
      simp only [call_span_wf, Bool.and_eq_true, decide_eq_true_eq] at hwf
      have h3 := member_obj_wf_unroll_le ce hwf.2
      rw [hu] at h3
      simp only at h3
      simp only [Expr.spanOf]
      exact le_trans h3 hwf.1
  | .call sp (.superCallee s2) args ta => simp [visitor.is_method_call] at h
  | .call sp (.importCallee s2) args ta => simp [visitor.is_method_call] at h
  | .member a b c => simp [visitor.is_method_call] at h
  | .ident a b => simp [visitor.is_method_call] at h
  | .lit a b => simp [visitor.is_method_call] at h
  | .arrow a b => simp [visitor.is_method_call] at h
  | .await a b => simp [visitor.is_method_call] at h
  | .other a b c => simp [visitor.is_method_call] at h

/-- C1: the test-case recognizer (`is_it_call_expr` of
frameworks/src/hardhat_ts/mod.rs) returns a `Test` for an expression iff
the expression is a call whose callee is the plain identifier `it`, with
exactly two arguments, the first a string literal (whose value becomes the
test-case message) and the second an arrow function whose body is a block
(whose statements become the test-case body). -/
theorem c1_recognizer_iff (e : Expr) (tc : hardhat_ts.Test) :
    hardhat_ts.is_it_call_expr e = some tc ↔
    ∃ (sp csp ssp asp bsp : Spn) (ta : Option TypeArgs) (msg : String) (stmts : List Stmt),
      e = .call sp (.expr (.ident csp "it"))
        [.lit ssp (.str msg), .arrow asp (.block bsp stmts)] ta ∧
      tc = ⟨msg, stmts⟩ := by
  constructor
  · intro h
    unfold hardhat_ts.is_it_call_expr at h
    split at h
    next sp csp sym arg0 arg1 ta =>
      split at h
      next hsym =>
        split at h
        next ssp msg asp bsp stmts =>
          simp only [Option.some.injEq] at h
          simp only [beq_iff_eq] at hsym
          subst hsym
          exact ⟨sp, csp, ssp, asp, bsp, ta, msg, stmts, rfl, h.symm⟩
        next => exact absurd h (by simp)
      next => exact absurd h (by simp)
    next => exact absurd h (by simp)
  · rintro ⟨sp, csp, ssp, asp, bsp, ta, msg, stmts, rfl, rfl⟩
    simp [hardhat_ts.is_it_call_expr]

/-- C2, counterexample: `it(a.b())` is a call to `it` that fails the full
recognizer conditions (a single argument, and not a string literal), yet
visiting it from a fresh state emits the method-call-suffix span `.b()`
(bytes 4-8) from inside the call — so the visitor did enter test-case
mode, contradicting the claim that `in_it_call_expr` remains false and no
spans are emitted. -/
theorem c2_counterexample :
    (visitor.visit_expr emptyConfig expr_it_ab ⟨false, 0, []⟩).spans = [⟨4, 8⟩] := by
  rw [visitor.eval_expr_it_ab]

/-- C2, amended: the visitor's `is_it_call_expr` checks only that the
expression is a call whose callee is the plain identifier `it`; every such
call — whatever its arguments — enters test-case mode: the flag is raised
for the traversal of the call's children and lowered afterwards (so spans
may be emitted from inside a malformed `it` call). -/
theorem c2_visitor_enters_mode_for_any_it_call :
    (∀ e : Expr, visitor.is_it_call_expr e = true ↔
      ∃ (sp csp : Spn) (args : List Expr) (ta : Option TypeArgs),
        e = .call sp (.expr (.ident csp "it")) args ta)
    ∧ (∀ (cfg : Config) (e : Expr) (st : visitor.VisitorState),
        visitor.is_it_call_expr e = true →
        visitor.visit_expr cfg e st =
          { visitor.visit_expr_children cfg e { st with inItCallExpr := true } with
              inItCallExpr := false }) := by
  constructor
  · intro e
    constructor
    · intro h
      unfold visitor.is_it_call_expr at h
      split at h
      next sp csp sym args ta =>
        simp only [beq_iff_eq] at h
        subst h
        exact ⟨sp, csp, args, ta, rfl⟩
      next => exact absurd h (by simp)
    · rintro ⟨sp, csp, args, ta, rfl⟩
      simp [visitor.is_it_call_expr]
  · intro cfg e st h
    exact visitor.visit_expr_it cfg e st h

/-- C2, witness: the amended mode-entry equation instantiated at the
malformed call `it(a.b())`. -/
theorem c2_witness :
    visitor.visit_expr emptyConfig expr_it_ab ⟨false, 0, []⟩ =
      { visitor.visit_expr_children emptyConfig expr_it_ab
          { (⟨false, 0, []⟩ : visitor.VisitorState) with inItCallExpr := true } with
          inItCallExpr := false } :=
  c2_visitor_enters_mode_for_any_it_call.2 emptyConfig expr_it_ab ⟨false, 0, []⟩ rfl

/-- C3: when the walk is in test-case mode at the point where the
method-call-suffix rule runs (the `in_it_call_expr` flag after recursing
into the expression, exactly as the code tests it) and the expression
decomposes as a method call `receiver.p1…pk(args)` whose path is not an
ignored method, the visit appends — after the children traversal — exactly
one span from the receiver's end byte offset to the call's end byte
offset; under the parser guarantee on spans this span satisfies
start ≤ end. -/
theorem c3_method_call_suffix (cfg : Config) (e : Expr) (st : visitor.VisitorState)
    (mc : visitor.MethodCall)
    (h1 : (visitor.visit_expr_children cfg e st).inItCallExpr = true)
    (h2 : visitor.is_method_call e = some mc)
    (h3 : visitor.is_ignored_method mc.path mc.args = false)
    (h4 : call_span_wf e = true) :
    visitor.visit_expr cfg e st =
      { visitor.visit_expr_children cfg e st with
          spans := (visitor.visit_expr_children cfg e st).spans
            ++ [⟨mc.obj.spanOf.hi, mc.span.hi⟩] }
    ∧ mc.obj.spanOf.hi ≤ mc.span.hi := by
  constructor
  · rw [visitor.visit_expr_method cfg e st mc (visitor.is_method_call_imp_not_it e mc h2) h2,
      h1, h3]
    rfl
  · exact method_call_span_le e mc h2 h4

/-- C3, witness: the rule applied to `contract.foo()` of scenario 1 in
test-case mode emits the span from the end of `contract` (byte 36) to the
end of the call (byte 42). -/
theorem c3_witness :
    visitor.visit_expr emptyConfig a_call ⟨true, 0, []⟩ =
      { visitor.visit_expr_children emptyConfig a_call ⟨true, 0, []⟩ with
          spans := (visitor.visit_expr_children emptyConfig a_call ⟨true, 0, []⟩).spans
            ++ [⟨36, 42⟩] }
    ∧ (36 : Nat) ≤ 42 := by
  have h1 : (visitor.visit_expr_children emptyConfig a_call ⟨true, 0, []⟩).inItCallExpr
      = true := by
    have hch : visitor.visit_expr_children emptyConfig a_call ⟨true, 0, []⟩
        = ⟨true, 0, []⟩ := by
      rw [show a_call = Expr.call ⟨28, 42⟩ (.expr a_member) [] none from rfl,
        visitor.visit_expr_children_call, visitor.visit_callee_expr,
        visitor.visit_expr_plain emptyConfig a_member ⟨true, 0, []⟩ rfl rfl,
        show a_member = Expr.member ⟨28, 40⟩ a_contract (.ident ⟨37, 40⟩ "foo") from rfl,
        visitor.visit_expr_children_member,
        show a_contract = Expr.ident ⟨28, 36⟩ "contract" from rfl,
        visitor.visit_expr_ident, visitor.visit_member_prop_ident, visitor.visit_expr_list_nil]
    rw [hch]
  exact c3_method_call_suffix emptyConfig a_call ⟨true, 0, []⟩
    ⟨⟨28, 42⟩, a_contract, ["foo"], [], none⟩ h1 rfl rfl rfl

/-- C4: an expression statement whose top expression, after unwrapping
awaits and member accesses (`trim_expr`), is a call whose path matches the
ignored-function predicate is not descended into: the visit of the
statement is exactly the visit of the call's argument expressions (the
type-argument subtree contains no expressions or statements, so its visit
is a no-op in the model).  In particular the module
`it("c", () => { expect(x).to.equal(1); });` yields zero spans. -/
theorem c4_ignored_function_call_stmt :
    (∀ (cfg : Config) (st : visitor.VisitorState) (sp : Spn) (e : Expr)
        (fc : visitor.FunctionCall),
      visitor.is_function_call (visitor.trim_expr e) = some fc →
      visitor.is_ignored_function cfg fc.path = true →
      visitor.visit_stmt cfg (.expr sp e) st = visitor.visit_expr_list cfg fc.args st)
    ∧ visitor.visit emptyConfig module_c = [] := by
  constructor
  · intro cfg st sp e fc h1 h2
    apply visitor.visit_stmt_ignored
    show visitor.is_ignored_function_call_loop cfg (visitor.trim_expr e) = some fc
    rw [visitor.is_ignored_function_call_loop.eq_def, h1]
    show (if visitor.is_ignored_function cfg fc.path = true then some fc else none) = some fc
    rw [if_pos h2]
  · exact visitor.eval_module_c

/-- C4, witness: the statement `expect(x);` (the inner ignored call of
scenario 3 in statement position) is visited by visiting only its argument
`x`. -/
theorem c4_witness :
    visitor.visit_stmt emptyConfig (.expr ⟨16, 26⟩ c_expect_call) ⟨true, 0, []⟩ =
      visitor.visit_expr_list emptyConfig [c_x] ⟨true, 0, []⟩ :=
  c4_ignored_function_call_stmt.1 emptyConfig ⟨true, 0, []⟩ ⟨16, 26⟩ c_expect_call
    ⟨⟨16, 25⟩, ["expect"], [c_x], none⟩ rfl rfl

/-- C5, counterexample: analyzing
`it("a", async () => { await contract.foo(); });` does not yield exactly
one span: the visitor emits two (the `.foo()` method-call suffix and then
the whole statement), so the output is not the singleton of the statement
span ⟨22, 43⟩. -/
theorem c5_counterexample :
    (visitor.visit emptyConfig module_a).length = 2 ∧
      visitor.visit emptyConfig module_a ≠ [⟨22, 43⟩] := by
  rw [visitor.eval_module_a]
  exact ⟨rfl, by simp⟩

/-- C5, amended: analyzing
`it("a", async () => { await contract.foo(); });` yields exactly two
spans, in order: first the method-call-suffix span `.foo()` (from the end
of `contract`, byte 36, to the end of the call, byte 42), then the span of
the whole statement `await contract.foo();` (bytes 22-43). -/
theorem c5_two_spans : visitor.visit emptyConfig module_a = [⟨36, 42⟩, ⟨22, 43⟩] :=
  visitor.eval_module_a

/-- C6: the ignored-method predicate holds iff the first identifier of the
chain is `should` or `to`, or it is `toNumber` or `toString` with the
chain of length 1 and no arguments; in particular it is false on the empty
path. -/
theorem c6_ignored_method_iff (path : List String) (args : List Expr) :
    visitor.is_ignored_method path args = true ↔
    ∃ p1 rest, path = p1 :: rest ∧
      (p1 = "should" ∨ p1 = "to" ∨
        ((p1 = "toNumber" ∨ p1 = "toString") ∧ path.length = 1 ∧ args = [])) := by
  cases path with
  | nil => simp [visitor.is_ignored_method]
  | cons p1 rest =>
    simp only [visitor.is_ignored_method, Bool.or_eq_true, Bool.and_eq_true, beq_iff_eq,
      List.length_cons, List.isEmpty_iff, List.cons.injEq]
    constructor
    · rintro ((h | h) | ⟨⟨h, hlen⟩, hargs⟩)
      · exact ⟨p1, rest, ⟨rfl, rfl⟩, .inl h⟩
      · exact ⟨p1, rest, ⟨rfl, rfl⟩, .inr (.inl h)⟩
      · refine ⟨p1, rest, ⟨rfl, rfl⟩, .inr (.inr ⟨h, ?_, hargs⟩)⟩
        simpa using hlen
    · rintro ⟨q1, qrest, ⟨rfl, rfl⟩, (h | h | ⟨h, hlen, hargs⟩)⟩
      · exact .inl (.inl h)
      · exact .inl (.inr h)
      · refine .inr ⟨⟨h, ?_⟩, hargs⟩
        simpa using hlen

/-- C7: the ignored-function predicate holds iff the first segment is
`assert` (any length), or the path is exactly the single segment `expect`,
or the segments joined with `.` equal some entry of the configured
`ignored_functions` set. -/
theorem c7_ignored_function_iff (cfg : Config) (path : List String) :
    visitor.is_ignored_function cfg path = true ↔
    ((∃ rest, path = "assert" :: rest) ∨ path = ["expect"] ∨
      String.intercalate "." path ∈ cfg.ignored_functions) := by
  cases path with
  | nil =>
    simp only [visitor.is_ignored_function, Bool.or_eq_true, List.any_eq_true, beq_iff_eq]
    constructor
    · rintro (h | ⟨s, hs, rfl⟩)
      · exact absurd h (by simp)
      · exact .inr (.inr hs)
    · rintro ((⟨rest, h⟩ | h | h))
      · exact absurd h (by simp)
      · exact absurd h (by simp)
      · exact .inr ⟨_, h, rfl⟩
  | cons p1 rest =>
    simp only [visitor.is_ignored_function, Bool.or_eq_true, Bool.and_eq_true, beq_iff_eq,
      List.any_eq_true, List.length_cons, List.cons.injEq]
    constructor
    · rintro ((h | ⟨h1, hlen⟩) | ⟨s, hs, rfl⟩)
      · exact .inl ⟨rest, h, rfl⟩
      · subst h1
        have : rest = [] := by simpa using hlen
        subst this
        exact .inr (.inl ⟨rfl, rfl⟩)
      · exact .inr (.inr hs)
    · rintro (⟨rest2, h1, h2⟩ | ⟨h1, h2⟩ | h)
      · subst h1
        exact .inl (.inl rfl)
      · subst h1
        subst h2
        exact .inl (.inr ⟨rfl, rfl⟩)
      · exact .inr ⟨_, h, rfl⟩

/-- C8: visiting a `break`, `continue`, `return`, or declaration statement
never appends a statement span (the output spans after the visit are
exactly those produced by the traversal of the statement's children); in
particular `it("f", () => { return x; });` yields zero spans. -/
theorem c8_control_flow_exclusion :
    (∀ (cfg : Config) (s : Stmt) (st : visitor.VisitorState),
      visitor.is_control_or_decl s = true →
      (visitor.visit_stmt cfg s st).spans = (visitor.visit_stmt_children cfg s st).spans)
    ∧ visitor.visit emptyConfig module_f = [] := by
  constructor
  · intro cfg s st h
    have hig : visitor.is_ignored_function_call cfg s = none := by
      cases s <;> first
        | rfl
        | exact absurd h (by simp [visitor.is_control_or_decl])
    rw [visitor.visit_stmt_normal cfg s st hig]
    simp only [h, Bool.not_true, Bool.and_false, Bool.false_eq_true, if_false]
    split
    · rfl
    · rfl
  · exact visitor.eval_module_f

/-- C8, witness: a lone `break;` in test-case mode gets no statement
span. -/
theorem c8_witness :
    (visitor.visit_stmt emptyConfig (.breakStmt ⟨0, 6⟩) ⟨true, 0, []⟩).spans =
      (visitor.visit_stmt_children emptyConfig (.breakStmt ⟨0, 6⟩) ⟨true, 0, []⟩).spans :=
  c8_control_flow_exclusion.1 emptyConfig (.breakStmt ⟨0, 6⟩) ⟨true, 0, []⟩ rfl

/-- C9: the analysis is deterministic — the spans are a function of the
parsed module and the ignore configuration alone.  The Rust visitor's only
state is the freshly created `Visitor` (flag, counter, output vector); the
embedding makes this literal: `visit` is a pure function, so two runs on
the same module with the same configuration return the same ordered
list. -/
theorem c9_determinism (cfg : Config) (m : Module) :
    visitor.visit cfg m = visitor.visit cfg m := rfl

/-- C10: the leaf counter counts every leaf statement, including the
`break`/`continue`/`return`/declaration statements excluded from span
emission (each bumps the counter by one while leaving the spans
unchanged); consequently a compound statement whose recursion visited only
such excluded leaves — a block containing only `return;`, or
`if (x) { return; }` — is internal and itself emits no span, and the whole
module `it("t", () => { if (x) { return; } });` yields zero spans. -/
theorem c10_leaf_counter :
    (∀ (cfg : Config) (sp : Spn) (st : visitor.VisitorState),
      visitor.visit_stmt cfg (.breakStmt sp) st =
        { st with nStmtLeavesVisited := st.nStmtLeavesVisited + 1 })
    ∧ (∀ (cfg : Config) (sp : Spn) (st : visitor.VisitorState),
      visitor.visit_stmt cfg (.continueStmt sp) st =
        { st with nStmtLeavesVisited := st.nStmtLeavesVisited + 1 })
    ∧ (∀ (cfg : Config) (sp : Spn) (st : visitor.VisitorState),
      visitor.visit_stmt cfg (.ret sp none) st =
        { st with nStmtLeavesVisited := st.nStmtLeavesVisited + 1 })
    ∧ (∀ (cfg : Config) (sp : Spn) (st : visitor.VisitorState),
      visitor.visit_stmt cfg (.decl sp [] []) st =
        { st with nStmtLeavesVisited := st.nStmtLeavesVisited + 1 })
    ∧ (∀ (cfg : Config) (sp rsp : Spn) (st : visitor.VisitorState),
      visitor.visit_stmt cfg (.block sp [.ret rsp none]) st =
        { st with nStmtLeavesVisited := st.nStmtLeavesVisited + 1 })
    ∧ (∀ (cfg : Config) (sp tsp csp rsp : Spn) (sym : String) (st : visitor.VisitorState),
      visitor.visit_stmt cfg (.ifStmt sp (.ident tsp sym) (.block csp [.ret rsp none]) none) st =
        { st with nStmtLeavesVisited := st.nStmtLeavesVisited + 1 })
    ∧ visitor.visit emptyConfig module_t = [] :=
  ⟨fun cfg sp st => visitor.visit_stmt_break_eq cfg sp st,
   fun cfg sp st => visitor.visit_stmt_continue_eq cfg sp st,
   fun cfg sp st => visitor.visit_stmt_ret_none_eq cfg sp st,
   fun cfg sp st => visitor.visit_stmt_decl_nil_eq cfg sp st,
   fun cfg sp rsp st => visitor.visit_stmt_block_ret_eq cfg sp rsp st,
   fun cfg sp tsp csp rsp sym st => visitor.visit_stmt_if_ret_eq cfg sp tsp csp rsp sym st,
   visitor.eval_module_t⟩

end Necessist
